import Mathlib

/-!
Verification of the Alquimia insight engine and persistence migration
(`src/alquimia_app_v1.py`).

The embedding models Python dicts as insertion-ordered association lists,
numeric scores as rationals, Python's stable `sorted` as insertion sort,
and the division that can raise `ZeroDivisionError` as an `Option` result
(`none` exactly where the Python code raises).
-/

namespace Alquimia

abbrev Area := String

/-- One SMART-goal record, as built by the goal-creation form
(`new_goal = {...}` in the source).  Only `area` and `completed` are read by
the insight engine and by the migration; the narrative fields are carried
along as plain strings. -/
structure Goal where
  area : Area
  specific : String := ""
  measurable : String := ""
  achievable : String := ""
  relevant : String := ""
  time_bound : String := ""
  priority : String := ""
  completed : Bool := false
  created_date : String := ""
  deriving DecidableEq

/-- Dict lookup `d.get(k)` on an insertion-ordered association list of scores. -/
def lookupQ (roda : List (Area × ℚ)) (k : Area) : Option ℚ :=
  (roda.find? (fun p => p.1 == k)).map (fun p => p.2)

/-- The per-area counters built by `analyze_roda_insights`:
`{'total': 0, 'completed': 0, 'pending': 0}`, updated once per goal. -/
structure GoalAgg where
  total : Nat
  completed : Nat
  pending : Nat
  deriving DecidableEq

/-- The loop body of the goal aggregation for a single goal:
increment `total`, and `completed` or `pending` according to
`goal.get('completed', False)`. -/
def bumpAgg (g : Goal) (v : GoalAgg) : GoalAgg :=
  { total := v.total + 1
    completed := if g.completed then v.completed + 1 else v.completed
    pending := if g.completed then v.pending else v.pending + 1 }

/-- Updating `goals_by_area` for one goal: dict semantics keep an existing
key in place; a new key is appended at the end. -/
def updateAssoc (m : List (Area × GoalAgg)) (g : Goal) : List (Area × GoalAgg) :=
  match m with
  | [] => [(g.area, bumpAgg g ⟨0, 0, 0⟩)]
  | (a, v) :: rest =>
      if a = g.area then (a, bumpAgg g v) :: rest else (a, v) :: updateAssoc rest g

/-- The `for goal in smart_goals` aggregation loop of `analyze_roda_insights`. -/
def goalsByArea (goals : List Goal) : List (Area × GoalAgg) :=
  goals.foldl updateAssoc []

/-- `goals_by_area.get(area)` as an option: `some` iff `area in goals_by_area`. -/
def lookupAgg (m : List (Area × GoalAgg)) (a : Area) : Option GoalAgg :=
  (m.find? (fun p => p.1 == a)).map (fun p => p.2)

def LOW_SCORE_THRESHOLD : ℚ := 5

def CRITICAL_THRESHOLD : ℚ := 3

/-- The comparison used by `sorted(roda_scores.items(), key=lambda x: x[1])`. -/
def scoreLE (p q : Area × ℚ) : Prop := p.2 ≤ q.2

instance : DecidableRel scoreLE := fun p q => inferInstanceAs (Decidable (p.2 ≤ q.2))

instance : IsTotal (Area × ℚ) scoreLE := ⟨fun p q => le_total p.2 q.2⟩

instance : IsTrans (Area × ℚ) scoreLE := ⟨fun _ _ _ h h2 => le_trans h h2⟩

/-- One `InsightRecommendation` as assembled for each `bottom_3` area. -/
structure Recommendation where
  area : Area
  score : ℚ
  has_goals : Bool
  goal_count : Nat
  pending_count : Nat
  completed_count : Nat
  priority_level : String
  message : String
  action : String
  deriving DecidableEq

/-- One entry of `areas_without_goals`. -/
structure AreaWithoutGoals where
  area : Area
  score : ℚ
  severity : String
  deriving DecidableEq

/-- The result dict of `analyze_roda_insights`. -/
@[ext]
structure Insights where
  bottom_3 : List (Area × ℚ)
  critical_areas : List (Area × ℚ)
  low_areas : List (Area × ℚ)
  areas_without_goals : List AreaWithoutGoals
  priority_recommendations : List Recommendation
  deriving DecidableEq

/-- Body of the `for area, score in bottom_3_areas` loop that builds one
recommendation, including the message/action precedence chain. -/
def mkRec (goals_by_area : List (Area × GoalAgg)) (p : Area × ℚ) : Recommendation :=
  let agg := lookupAgg goals_by_area p.1
  let has_goals := agg.isSome
  let goal_count := (agg.getD ⟨0, 0, 0⟩).total
  let pending_count := (agg.getD ⟨0, 0, 0⟩).pending
  let completed_count := (agg.getD ⟨0, 0, 0⟩).completed
  let priority_level :=
    if p.2 ≤ CRITICAL_THRESHOLD then "critical" else if p.2 ≤ 5 then "high" else "medium"
  let ma : String × String :=
    if !has_goals then
      ("Nenhuma meta criada ainda", "create_first")
    else if pending_count = 0 ∧ completed_count > 0 then
      ("Todas as " ++ toString goal_count ++ " meta(s) completadas, mas pontuação ainda baixa",
        "create_more")
    else if pending_count > 0 then
      (toString pending_count ++ " meta(s) pendente(s)", "focus_existing")
    else
      ("Área precisa de atenção", "create_first")
  { area := p.1, score := p.2, has_goals := has_goals, goal_count := goal_count,
    pending_count := pending_count, completed_count := completed_count,
    priority_level := priority_level, message := ma.1, action := ma.2 }

/-- `analyze_roda_insights(roda_scores, smart_goals)`, with the session-state
reads made explicit parameters. -/
def analyze_roda_insights (roda : List (Area × ℚ)) (goals : List Goal) : Insights :=
  let sorted_areas := List.insertionSort scoreLE roda
  let low_areas := sorted_areas.filter (fun p => decide (p.2 ≤ LOW_SCORE_THRESHOLD))
  let critical_areas := sorted_areas.filter (fun p => decide (p.2 ≤ CRITICAL_THRESHOLD))
  let bottom_3_areas := sorted_areas.take 3
  let goals_by_area := goalsByArea goals
  { bottom_3 := bottom_3_areas
    critical_areas := critical_areas
    low_areas := low_areas
    areas_without_goals :=
      (low_areas.filter (fun p => (lookupAgg goals_by_area p.1).isNone)).map
        (fun p => { area := p.1, score := p.2,
                    severity := if p.2 ≤ CRITICAL_THRESHOLD then "critical" else "high" })
    priority_recommendations := bottom_3_areas.map (mkRec goals_by_area) }

/-- `sum(scores.values()) / len(scores)` as written in `should_show_insights`. -/
def mean_score (roda : List (Area × ℚ)) : ℚ :=
  (roda.map Prod.snd).sum / (roda.length : ℚ)

/-- `should_show_insights`.  The Python body divides by `len(roda_scores)`
with no guard, so an empty mapping raises `ZeroDivisionError`; the embedding
returns `none` exactly there and `some` of the comparison otherwise. -/
def should_show_insights (roda : List (Area × ℚ)) : Option Bool :=
  if roda.length = 0 then none
  else some (decide (mean_score roda < 7.5))

/-- The `old_to_new` legacy bilingual-to-short area-name table of `load_data`
(the same table is used for `roda_scores` keys and for goal `area` fields). -/
def old_to_new : List (Area × Area) :=
  [("Saúde/Health", "Saúde"),
   ("Carreira/Career", "Carreira"),
   ("Finanças/Finances", "Finanças"),
   ("Relacionamentos/Relationships", "Relacionamentos"),
   ("Família/Family", "Família"),
   ("Espiritualidade/Spirituality", "Espiritualidade"),
   ("Diversão/Fun", "Diversão"),
   ("Crescimento Pessoal/Growth", "Crescimento Pessoal"),
   ("Ambiente Físico/Home", "Ambiente Físico"),
   ("Criatividade/Creativity", "Criatividade")]

/-- One iteration of the `for old_key, new_key in old_to_new.items()` loop of
`load_data`: take the value under the legacy key if present, else under the
short key if present, else contribute nothing. -/
def migratePair (roda : List (Area × ℚ)) (pr : Area × Area) : Option (Area × ℚ) :=
  match lookupQ roda pr.1 with
  | some v => some (pr.2, v)
  | none =>
    match lookupQ roda pr.2 with
    | some v => some (pr.2, v)
    | none => none

/-- The `roda_scores` migration of `load_data`: rebuild the mapping from
recognized keys and replace the stored one only when the rebuilt dict is
non-empty (`if migrated_scores:`). -/
def migrate_scores (roda : List (Area × ℚ)) : List (Area × ℚ) :=
  let migrated := old_to_new.filterMap (migratePair roda)
  if migrated.isEmpty then roda else migrated

/-- The per-goal area migration of `load_data`: the first matching legacy
name is rewritten to its short form (`break` after the first hit). -/
def migrateArea (a : Area) : Area :=
  match old_to_new.find? (fun pr => pr.1 == a) with
  | some pr => pr.2
  | none => a

/-- The `smart_goals` migration of `load_data`. -/
def migrate_goals (gs : List Goal) : List Goal :=
  gs.map (fun g => { g with area := migrateArea g.area })

/-- The aggregate that `goals_by_area` holds for area `a` at the end of the
loop, phrased by counting goals directly. -/
def aggOf (gs : List Goal) (a : Area) : GoalAgg :=
  ⟨gs.countP (fun g => g.area == a),
   gs.countP (fun g => g.area == a && g.completed),
   gs.countP (fun g => g.area == a && !g.completed)⟩

/-- Pointwise sum of two aggregates. -/
def addAgg (v w : GoalAgg) : GoalAgg :=
  ⟨v.total + w.total, v.completed + w.completed, v.pending + w.pending⟩

/-- A stored key the migration recognizes: a legacy bilingual name or one of
the 10 canonical short names. -/
def recognizedArea (a : Area) : Prop :=
  a ∈ old_to_new.map Prod.fst ∨ a ∈ old_to_new.map Prod.snd

instance : DecidablePred recognizedArea := fun a =>
  inferInstanceAs (Decidable (a ∈ old_to_new.map Prod.fst ∨ a ∈ old_to_new.map Prod.snd))

/-! ### Goal aggregation -/

theorem lookupAgg_nil (a : Area) : lookupAgg [] a = none := rfl

theorem lookupAgg_cons (b : Area) (v : GoalAgg) (m : List (Area × GoalAgg)) (a : Area) :
    lookupAgg ((b, v) :: m) a = if b = a then some v else lookupAgg m a := by
  by_cases h : b = a
  · subst h
    rw [lookupAgg, List.find?_cons_of_pos _ (by simp)]
    simp
  · rw [lookupAgg, List.find?_cons_of_neg _ (by simp [h]), if_neg h, lookupAgg]

theorem lookupAgg_updateAssoc (m : List (Area × GoalAgg)) (g : Goal) (a : Area) :
    lookupAgg (updateAssoc m g) a =
      if g.area = a then some (bumpAgg g ((lookupAgg m a).getD ⟨0, 0, 0⟩))
      else lookupAgg m a := by
  induction m with
  | nil =>
      by_cases h : g.area = a <;> simp [updateAssoc, lookupAgg_cons, lookupAgg_nil, h]
  | cons hd tl ih =>
      obtain ⟨b, v⟩ := hd
      rw [updateAssoc]
      by_cases hbg : b = g.area
      · rw [if_pos hbg]
        by_cases hba : b = a
        · have hga : g.area = a := hbg.symm.trans hba
          rw [lookupAgg_cons, lookupAgg_cons, if_pos hba, if_pos hba, if_pos hga,
            Option.getD_some]
        · have hga : g.area ≠ a := fun h => hba (hbg.trans h)
          rw [lookupAgg_cons, lookupAgg_cons, if_neg hba, if_neg hba, if_neg hga]
      · rw [if_neg hbg]
        by_cases hba : b = a
        · have hga : g.area ≠ a := fun h => hbg (hba.trans h.symm)
          rw [lookupAgg_cons, lookupAgg_cons, if_pos hba, if_pos hba, if_neg hga]
        · rw [lookupAgg_cons, lookupAgg_cons, if_neg hba, if_neg hba, ih]

theorem lookupAgg_foldl (gs : List Goal) (m : List (Area × GoalAgg)) (a : Area) :
    lookupAgg (gs.foldl updateAssoc m) a =
      match lookupAgg m a with
      | some v => some (addAgg v (aggOf gs a))
      | none =>
          if gs.countP (fun g => g.area == a) = 0 then none else some (aggOf gs a) := by
  induction gs generalizing m with
  | nil =>
      cases hm : lookupAgg m a <;> simp [hm, aggOf, addAgg]
  | cons g gs ih =>
      rw [List.foldl_cons, ih (updateAssoc m g), lookupAgg_updateAssoc]
      by_cases hga : g.area = a
      · have hb : (g.area == a) = true := by simp [hga]
        rw [if_pos hga]
        cases hm : lookupAgg m a with
        | some v =>
            refine congrArg some ?_
            cases hc : g.completed <;>
              simp [aggOf, addAgg, bumpAgg, List.countP_cons, hb, hc] <;> omega
        | none =>
            have hcz : ¬ ((g :: gs).countP (fun g => g.area == a) = 0) := by
              simp [List.countP_cons, hb]
            rw [if_neg hcz]
            refine congrArg some ?_
            cases hc : g.completed <;>
              simp [aggOf, addAgg, bumpAgg, List.countP_cons, hb, hc] <;> omega
      · have hb : (g.area == a) = false := by simp [hga]
        rw [if_neg hga]
        have hcnt : (g :: gs).countP (fun g => g.area == a)
            = gs.countP (fun g => g.area == a) := by
          simp [List.countP_cons, hb]
        have hagg : aggOf (g :: gs) a = aggOf gs a := by
          simp [aggOf, List.countP_cons, hb]
        rw [hcnt, hagg]

theorem lookupAgg_goalsByArea (gs : List Goal) (a : Area) :
    lookupAgg (goalsByArea gs) a =
      if gs.countP (fun g => g.area == a) = 0 then none else some (aggOf gs a) := by
  rw [goalsByArea, lookupAgg_foldl gs [] a, lookupAgg_nil]

theorem countP_and_not {α : Type} (l : List α) (p q : α → Bool) :
    l.countP (fun x => p x && q x) + l.countP (fun x => p x && !q x) = l.countP p := by
  induction l with
  | nil => simp
  | cons x l ih =>
      cases hp : p x <;> cases hq : q x <;>
        simp [List.countP_cons, hp, hq] <;> omega

/-! ### Projections of the insight result -/

theorem analyze_bottom_3 (roda : List (Area × ℚ)) (goals : List Goal) :
    (analyze_roda_insights roda goals).bottom_3 =
      (List.insertionSort scoreLE roda).take 3 := rfl

theorem analyze_low_areas (roda : List (Area × ℚ)) (goals : List Goal) :
    (analyze_roda_insights roda goals).low_areas =
      (List.insertionSort scoreLE roda).filter
        (fun p => decide (p.2 ≤ LOW_SCORE_THRESHOLD)) := rfl

theorem analyze_areas_without_goals (roda : List (Area × ℚ)) (goals : List Goal) :
    (analyze_roda_insights roda goals).areas_without_goals =
      (((analyze_roda_insights roda goals).low_areas.filter
          (fun p => (lookupAgg (goalsByArea goals) p.1).isNone)).map
        (fun p => { area := p.1, score := p.2,
                    severity := if p.2 ≤ CRITICAL_THRESHOLD then "critical"
                      else "high" })) := rfl

theorem analyze_priority_recommendations (roda : List (Area × ℚ)) (goals : List Goal) :
    (analyze_roda_insights roda goals).priority_recommendations =
      ((List.insertionSort scoreLE roda).take 3).map (mkRec (goalsByArea goals)) := rfl

/-! ### Shape of a single recommendation -/

theorem mkRec_eq (m : List (Area × GoalAgg)) (p : Area × ℚ) :
    mkRec m p =
      match lookupAgg m p.1 with
      | none =>
          { area := p.1, score := p.2, has_goals := false, goal_count := 0,
            pending_count := 0, completed_count := 0,
            priority_level := if p.2 ≤ CRITICAL_THRESHOLD then "critical"
              else if p.2 ≤ 5 then "high" else "medium",
            message := "Nenhuma meta criada ainda", action := "create_first" }
      | some v =>
          { area := p.1, score := p.2, has_goals := true, goal_count := v.total,
            pending_count := v.pending, completed_count := v.completed,
            priority_level := if p.2 ≤ CRITICAL_THRESHOLD then "critical"
              else if p.2 ≤ 5 then "high" else "medium",
            message :=
              if v.pending = 0 ∧ v.completed > 0 then
                "Todas as " ++ toString v.total ++
                  " meta(s) completadas, mas pontuação ainda baixa"
              else if v.pending > 0 then
                toString v.pending ++ " meta(s) pendente(s)"
              else "Área precisa de atenção",
            action :=
              if v.pending = 0 ∧ v.completed > 0 then "create_more"
              else if v.pending > 0 then "focus_existing"
              else "create_first" } := by
  cases h : lookupAgg m p.1 with
  | none => simp [mkRec, h]
  | some v =>
      by_cases h1 : v.pending = 0 ∧ v.completed > 0
      · simp [mkRec, h, h1]
      · by_cases h2 : v.pending > 0 <;> simp [mkRec, h, h1, h2]

/-- If the lookup in `goals_by_area` succeeds, the stored aggregate counts the
goals of that area and the area has at least one goal. -/
theorem lookupAgg_goalsByArea_some (goals : List Goal) (a : Area) (v : GoalAgg)
    (h : lookupAgg (goalsByArea goals) a = some v) :
    v = aggOf goals a ∧ goals.countP (fun g => g.area == a) ≠ 0 := by
  rw [lookupAgg_goalsByArea] at h
  by_cases hz : goals.countP (fun g => g.area == a) = 0
  · rw [if_pos hz] at h
    exact absurd h (by simp)
  · rw [if_neg hz] at h
    exact ⟨(Option.some.inj h).symm, hz⟩

/-! ### Message distinctness -/

theorem todas_ne_fallback (s : String) :
    ("Todas as " ++ s) ≠ "Área precisa de atenção" := by
  intro h
  have hd : ("Todas as " ++ s).data = ("Área precisa de atenção").data := by rw [h]
  rw [String.data_append] at hd
  rw [show ("Todas as ").data = 'T' :: ("odas as ").data from rfl] at hd
  rw [show ("Área precisa de atenção").data
      = 'Á' :: ("rea precisa de atenção").data from rfl] at hd
  rw [List.cons_append] at hd
  injection hd with h1 _
  exact absurd h1 (by decide)

theorem pendente_ne_fallback (s : String) :
    (s ++ " meta(s) pendente(s)") ≠ "Área precisa de atenção" := by
  intro h
  have hd : (s ++ " meta(s) pendente(s)").data = ("Área precisa de atenção").data := by
    rw [h]
  rw [String.data_append] at hd
  have h2 := congrArg List.getLast? hd
  rw [List.getLast?_append_of_ne_nil _ (by decide)] at h2
  exact absurd h2 (by decide)

/-! ### C4: aggregation invariant -/

/-- C4: for every list of goals, each area present in the per-area goal
aggregation satisfies `completed + pending = total`, and areas with no goals
are absent from the aggregation map rather than zero-initialized. -/
theorem goal_aggregation_invariant (goals : List Goal) :
    (∀ (a : Area) (agg : GoalAgg), lookupAgg (goalsByArea goals) a = some agg →
      agg.completed + agg.pending = agg.total) ∧
    (∀ a : Area, a ∉ goals.map Goal.area → lookupAgg (goalsByArea goals) a = none) := by
  constructor
  · intro a agg h
    obtain ⟨hv, -⟩ := lookupAgg_goalsByArea_some goals a agg h
    subst hv
    exact countP_and_not goals (fun g => g.area == a) (fun g => g.completed)
  · intro a ha
    rw [lookupAgg_goalsByArea, if_pos]
    rw [List.countP_eq_zero]
    intro g hg
    simp only [beq_iff_eq]
    exact fun h => ha (h ▸ List.mem_map_of_mem Goal.area hg)

/-- Witness for C4: two goals for the same area (one completed, one pending)
give the aggregate `⟨2, 1, 1⟩`, and an area with no goals is absent. -/
theorem goal_aggregation_invariant_witness :
    (⟨2, 1, 1⟩ : GoalAgg).completed + (⟨2, 1, 1⟩ : GoalAgg).pending
        = (⟨2, 1, 1⟩ : GoalAgg).total ∧
    lookupAgg (goalsByArea [{ area := "Saúde", completed := true }]) "Carreira" = none :=
  ⟨(goal_aggregation_invariant
      [{ area := "Saúde", completed := true }, { area := "Saúde" }]).1
        "Saúde" ⟨2, 1, 1⟩ (by decide),
   (goal_aggregation_invariant [{ area := "Saúde", completed := true }]).2
      "Carreira" (by decide)⟩

/-! ### Field corollaries of `mkRec_eq` -/

theorem lookupAgg_goalsByArea_none (goals : List Goal) (a : Area)
    (h : lookupAgg (goalsByArea goals) a = none) :
    goals.countP (fun g => g.area == a) = 0 := by
  rw [lookupAgg_goalsByArea] at h
  by_cases hz : goals.countP (fun g => g.area == a) = 0
  · exact hz
  · rw [if_neg hz] at h
    exact absurd h (by simp)

theorem mkRec_priority (m : List (Area × GoalAgg)) (p : Area × ℚ) :
    (mkRec m p).priority_level =
      if p.2 ≤ CRITICAL_THRESHOLD then "critical"
        else if p.2 ≤ 5 then "high" else "medium" := by
  cases h : lookupAgg m p.1 <;> rw [mkRec_eq, h]

theorem mkRec_message_none (m : List (Area × GoalAgg)) (p : Area × ℚ)
    (h : lookupAgg m p.1 = none) :
    (mkRec m p).message = "Nenhuma meta criada ainda" := by
  rw [mkRec_eq, h]

theorem mkRec_action_none (m : List (Area × GoalAgg)) (p : Area × ℚ)
    (h : lookupAgg m p.1 = none) :
    (mkRec m p).action = "create_first" := by
  rw [mkRec_eq, h]

theorem mkRec_message_some (m : List (Area × GoalAgg)) (p : Area × ℚ) (v : GoalAgg)
    (h : lookupAgg m p.1 = some v) :
    (mkRec m p).message =
      if v.pending = 0 ∧ v.completed > 0 then
        "Todas as " ++ toString v.total ++
          " meta(s) completadas, mas pontuação ainda baixa"
      else if v.pending > 0 then toString v.pending ++ " meta(s) pendente(s)"
      else "Área precisa de atenção" := by
  rw [mkRec_eq, h]

theorem mkRec_action_some (m : List (Area × GoalAgg)) (p : Area × ℚ) (v : GoalAgg)
    (h : lookupAgg m p.1 = some v) :
    (mkRec m p).action =
      if v.pending = 0 ∧ v.completed > 0 then "create_more"
      else if v.pending > 0 then "focus_existing"
      else "create_first" := by
  rw [mkRec_eq, h]

/-! ### C5: threshold and action rules for bottom-3 recommendations -/

/-- C5: a bottom-3 recommendation for an area with score 2 and zero
associated goals has action `create_first` and priority level `critical`;
one for an area with score 4 and exactly two associated goals, both
completed, has action `create_more` and priority level `high`. -/
theorem bottom3_action_cases (roda : List (Area × ℚ)) (goals : List Goal)
    (r : Recommendation)
    (hr : r ∈ (analyze_roda_insights roda goals).priority_recommendations) :
    (r.score = 2 → goals.countP (fun g => g.area == r.area) = 0 →
       r.action = "create_first" ∧ r.priority_level = "critical") ∧
    (r.score = 4 → goals.countP (fun g => g.area == r.area) = 2 →
       goals.countP (fun g => g.area == r.area && g.completed) = 2 →
       r.action = "create_more" ∧ r.priority_level = "high") := by
  rw [analyze_priority_recommendations] at hr
  obtain ⟨p, hp, rfl⟩ := List.mem_map.mp hr
  have harea : (mkRec (goalsByArea goals) p).area = p.1 := rfl
  have hscore : (mkRec (goalsByArea goals) p).score = p.2 := rfl
  rw [harea, hscore]
  constructor
  · intro hs hcnt
    have hnone : lookupAgg (goalsByArea goals) p.1 = none := by
      rw [lookupAgg_goalsByArea, if_pos hcnt]
    rw [mkRec_action_none _ _ hnone, mkRec_priority, hs]
    exact ⟨rfl, by rw [if_pos (by decide)]⟩
  · intro hs hcnt hcc
    have hpend : goals.countP (fun g => g.area == p.1 && !g.completed) = 0 := by
      have := countP_and_not goals (fun g => g.area == p.1) (fun g => g.completed)
      omega
    have hsome : lookupAgg (goalsByArea goals) p.1 = some ⟨2, 2, 0⟩ := by
      rw [lookupAgg_goalsByArea, if_neg (by omega)]
      simp [aggOf, hcnt, hcc, hpend]
    rw [mkRec_action_some _ _ _ hsome, mkRec_priority, hs]
    constructor
    · rw [if_pos (by exact ⟨rfl, by decide⟩)]
    · rw [if_neg (by decide), if_pos (by decide)]

/-- Witness for C5: scores `{Carreira: 2, Saúde: 4, Diversão: 9}` with two
completed goals for Saúde. -/
theorem bottom3_action_cases_witness :
    (mkRec (goalsByArea [{ area := "Saúde", completed := true },
        { area := "Saúde", completed := true }]) ("Carreira", 2)).action
        = "create_first" ∧
    (mkRec (goalsByArea [{ area := "Saúde", completed := true },
        { area := "Saúde", completed := true }]) ("Carreira", 2)).priority_level
        = "critical" ∧
    (mkRec (goalsByArea [{ area := "Saúde", completed := true },
        { area := "Saúde", completed := true }]) ("Saúde", 4)).action
        = "create_more" ∧
    (mkRec (goalsByArea [{ area := "Saúde", completed := true },
        { area := "Saúde", completed := true }]) ("Saúde", 4)).priority_level
        = "high" := by
  have h1 := bottom3_action_cases [("Carreira", 2), ("Saúde", 4), ("Diversão", 9)]
    [{ area := "Saúde", completed := true }, { area := "Saúde", completed := true }]
    (mkRec (goalsByArea [{ area := "Saúde", completed := true },
      { area := "Saúde", completed := true }]) ("Carreira", 2)) (by decide)
  have h2 := bottom3_action_cases [("Carreira", 2), ("Saúde", 4), ("Diversão", 9)]
    [{ area := "Saúde", completed := true }, { area := "Saúde", completed := true }]
    (mkRec (goalsByArea [{ area := "Saúde", completed := true },
      { area := "Saúde", completed := true }]) ("Saúde", 4)) (by decide)
  obtain ⟨ha1, hp1⟩ := h1.1 (by decide) (by decide)
  obtain ⟨ha2, hp2⟩ := h2.2 (by decide) (by decide) (by decide)
  exact ⟨ha1, hp1, ha2, hp2⟩

/-! ### C9: the fallback branch is dead code -/

/-- C9: no recommendation ever carries the fallback message
"Área precisa de atenção", and action `create_first` arises only for areas
with zero associated goals. -/
theorem fallback_branch_dead (roda : List (Area × ℚ)) (goals : List Goal)
    (r : Recommendation)
    (hr : r ∈ (analyze_roda_insights roda goals).priority_recommendations) :
    r.message ≠ "Área precisa de atenção" ∧
    (r.action = "create_first" → goals.countP (fun g => g.area == r.area) = 0) := by
  rw [analyze_priority_recommendations] at hr
  obtain ⟨p, hp, rfl⟩ := List.mem_map.mp hr
  have harea : (mkRec (goalsByArea goals) p).area = p.1 := rfl
  rw [harea]
  cases h : lookupAgg (goalsByArea goals) p.1 with
  | none =>
      rw [mkRec_message_none _ _ h, mkRec_action_none _ _ h]
      exact ⟨by decide, fun _ => lookupAgg_goalsByArea_none goals p.1 h⟩
  | some v =>
      obtain ⟨hv, hnz⟩ := lookupAgg_goalsByArea_some goals p.1 v h
      have htot : v.completed + v.pending = v.total := by
        rw [hv]
        exact countP_and_not goals (fun g => g.area == p.1) (fun g => g.completed)
      have htnz : v.total ≠ 0 := by
        rw [hv]
        exact hnz
      rw [mkRec_message_some _ _ _ h, mkRec_action_some _ _ _ h]
      by_cases h1 : v.pending = 0 ∧ v.completed > 0
      · rw [if_pos h1, if_pos h1]
        exact ⟨todas_ne_fallback _, fun habs => absurd habs (by decide)⟩
      · by_cases h2 : v.pending > 0
        · rw [if_neg h1, if_neg h1, if_pos h2, if_pos h2]
          exact ⟨pendente_ne_fallback _, fun habs => absurd habs (by decide)⟩
        · exfalso
          have hp0 : v.pending = 0 := by omega
          have hc0 : ¬ v.completed > 0 := fun hc => h1 ⟨hp0, hc⟩
          omega

/-- Witness for C9 at a single area with no goals. -/
theorem fallback_branch_dead_witness :
    (mkRec (goalsByArea ([] : List Goal)) ("Saúde", 1)).message
        ≠ "Área precisa de atenção" ∧
    ([] : List Goal).countP (fun g => g.area == "Saúde") = 0 := by
  have h := fallback_branch_dead [("Saúde", 1)] []
    (mkRec (goalsByArea ([] : List Goal)) ("Saúde", 1)) (by decide)
  exact ⟨h.1, h.2 (by decide)⟩

/-! ### C1: `bottom_3` is the stable ascending head of the sort -/

/-- Stability of the sort underlying `bottom_3`: filtering the sorted list to
any fixed score gives back the input entries with that score, in input
order. -/
theorem filter_score_insertionSort (roda : List (Area × ℚ)) (c : ℚ) :
    (List.insertionSort scoreLE roda).filter (fun p => decide (p.2 = c)) =
      roda.filter (fun p => decide (p.2 = c)) := by
  have hall : ∀ q ∈ roda.filter (fun p => decide (p.2 = c)),
      (fun p : Area × ℚ => decide (p.2 = c)) q = true :=
    fun q hq => (List.mem_filter.mp hq).2
  have hpair : (roda.filter (fun p => decide (p.2 = c))).Pairwise scoreLE := by
    refine List.pairwise_of_forall_mem_list ?_
    intro x hx y hy
    have hxc : x.2 = c := of_decide_eq_true (List.mem_filter.mp hx).2
    have hyc : y.2 = c := of_decide_eq_true (List.mem_filter.mp hy).2
    show x.2 ≤ y.2
    rw [hxc, hyc]
  have hA : List.Sublist (roda.filter (fun p => decide (p.2 = c)))
      (List.insertionSort scoreLE roda) :=
    List.sublist_insertionSort hpair (List.filter_sublist roda)
  have hAB : List.Sublist (roda.filter (fun p => decide (p.2 = c)))
      ((List.insertionSort scoreLE roda).filter (fun p => decide (p.2 = c))) := by
    have h2 := hA.filter (fun p => decide (p.2 = c))
    rwa [List.filter_eq_self.mpr hall] at h2
  have hperm : List.Perm
      ((List.insertionSort scoreLE roda).filter (fun p => decide (p.2 = c)))
      (roda.filter (fun p => decide (p.2 = c))) :=
    (List.perm_insertionSort scoreLE roda).filter _
  exact (hAB.eq_of_length hperm.length_eq.symm).symm

/-- C1: for every score mapping with at least 3 areas, `bottom_3` has exactly
3 entries, is sorted ascending by score, and equal-score entries keep the
original insertion order of the mapping: for each score, the tied entries of
`bottom_3` are a prefix of the input entries with that score, in input
order. -/
theorem bottom3_sorted_stable (roda : List (Area × ℚ)) (goals : List Goal)
    (h3 : 3 ≤ roda.length) :
    ((analyze_roda_insights roda goals).bottom_3).length = 3 ∧
    ((analyze_roda_insights roda goals).bottom_3).Pairwise scoreLE ∧
    ∀ c : ℚ, ((analyze_roda_insights roda goals).bottom_3).filter
        (fun p => decide (p.2 = c)) <+:
      roda.filter (fun p => decide (p.2 = c)) := by
  rw [analyze_bottom_3]
  refine ⟨?_, ?_, ?_⟩
  · rw [List.length_take, List.length_insertionSort]
    omega
  · exact List.Pairwise.sublist (List.take_sublist 3 _)
      (List.sorted_insertionSort scoreLE roda)
  · intro c
    refine ⟨((List.insertionSort scoreLE roda).drop 3).filter
      (fun p => decide (p.2 = c)), ?_⟩
    rw [← List.filter_append, List.take_append_drop, filter_score_insertionSort]

/-- Witness for C1 on a mapping with two tied pairs: the sort keeps input
order among ties. -/
theorem bottom3_sorted_stable_witness :
    ((analyze_roda_insights [("A", 5), ("B", 2), ("C", 5), ("D", 2)] []).bottom_3).length
        = 3 ∧
    (analyze_roda_insights [("A", 5), ("B", 2), ("C", 5), ("D", 2)] []).bottom_3
        = [("B", 2), ("D", 2), ("A", 5)] :=
  ⟨(bottom3_sorted_stable [("A", 5), ("B", 2), ("C", 5), ("D", 2)] [] (by decide)).1,
   by decide⟩

/-! ### C2 and C3: `should_show_insights` -/

/-- C2: `should_show_insights` on an empty score mapping has no defined
result: the Python body divides by `len(roda_scores)` with no guard, so the
call raises `ZeroDivisionError` (modelled as `none`) instead of returning a
defined default. -/
theorem should_show_insights_empty_raises :
    should_show_insights ([] : List (Area × ℚ)) = none := rfl

/-- C3: for every non-empty score mapping, `should_show_insights` is `false`
iff the mean is at least 7.5 and `true` iff the mean is below 7.5; all
scores 8 give `false`, all scores 5 give `true`. -/
theorem should_show_insights_spec (roda : List (Area × ℚ)) (h : roda ≠ []) :
    (should_show_insights roda = some false ↔ (7.5 : ℚ) ≤ mean_score roda) ∧
    (should_show_insights roda = some true ↔ mean_score roda < 7.5) ∧
    ((∀ p ∈ roda, p.2 = 8) → should_show_insights roda = some false) ∧
    ((∀ p ∈ roda, p.2 = 5) → should_show_insights roda = some true) := by
  have hlen : roda.length ≠ 0 := fun hl => h (List.length_eq_zero.mp hl)
  have hcast : (roda.length : ℚ) ≠ 0 := Nat.cast_ne_zero.mpr hlen
  have hss : should_show_insights roda = some (decide (mean_score roda < 7.5)) := by
    rw [should_show_insights, if_neg hlen]
  have hconst : ∀ q : ℚ, (∀ p ∈ roda, p.2 = q) → mean_score roda = q := by
    intro q hq
    rw [mean_score]
    have hsum : (roda.map Prod.snd).sum = (roda.map Prod.snd).length • q := by
      refine List.sum_eq_card_nsmul _ q ?_
      intro x hx
      obtain ⟨p, hp, rfl⟩ := List.mem_map.mp hx
      exact hq p hp
    rw [hsum, List.length_map, nsmul_eq_mul, mul_div_cancel_left₀ q hcast]
  refine ⟨?_, ?_, ?_, ?_⟩
  · rw [hss]
    simp [not_lt]
  · rw [hss]
    simp
  · intro h8
    rw [hss, hconst 8 h8]
    simp only [Option.some.injEq, decide_eq_false_iff_not, not_lt]
    norm_num
  · intro h5
    rw [hss, hconst 5 h5]
    simp only [Option.some.injEq, decide_eq_true_eq]
    norm_num

/-- Witness for C3: a mapping of all 8s and a mapping of all 5s. -/
theorem should_show_insights_spec_witness :
    should_show_insights [("A", 8)] = some false ∧
    should_show_insights [("B", 5)] = some true :=
  ⟨(should_show_insights_spec [("A", 8)] (by decide)).2.2.1 (by decide),
   (should_show_insights_spec [("B", 5)] (by decide)).2.2.2 (by decide)⟩

/-! ### C6: concrete scenario -/

/-- C6: for scores `{A:2, B:4, C:9, D:7, E:5}` (in that insertion order) and
no goals, `bottom_3` is exactly `[(A,2), (B,4), (E,5)]` and
`areas_without_goals` is A (critical), B (high), E (high). -/
theorem insight_scenario_concrete :
    (analyze_roda_insights [("A", 2), ("B", 4), ("C", 9), ("D", 7), ("E", 5)] []).bottom_3
        = [("A", 2), ("B", 4), ("E", 5)] ∧
    (analyze_roda_insights [("A", 2), ("B", 4), ("C", 9), ("D", 7), ("E", 5)]
          []).areas_without_goals
        = [{ area := "A", score := 2, severity := "critical" },
           { area := "B", score := 4, severity := "high" },
           { area := "E", score := 5, severity := "high" }] := by
  constructor <;> decide

/-! ### C7: goals whose area is not a score key do not affect the result -/

theorem mkRec_congr (m m2 : List (Area × GoalAgg)) (p : Area × ℚ)
    (h : lookupAgg m p.1 = lookupAgg m2 p.1) : mkRec m p = mkRec m2 p := by
  rw [mkRec_eq, mkRec_eq, h]

/-- Restricting the goal list to areas of the score mapping does not change
any aggregation lookup at a score-mapping area. -/
theorem lookupAgg_filter_known (roda : List (Area × ℚ)) (goals : List Goal)
    (a : Area) (ha : a ∈ roda.map Prod.fst) :
    lookupAgg (goalsByArea (goals.filter
        (fun g => (roda.map Prod.fst).contains g.area))) a =
      lookupAgg (goalsByArea goals) a := by
  have key : ∀ p : Goal → Bool, (∀ g, p g = true → (g.area == a) = true) →
      (goals.filter (fun g => (roda.map Prod.fst).contains g.area)).countP p
        = goals.countP p := by
    intro p hp
    rw [List.countP_filter]
    refine List.countP_congr ?_
    intro g hg
    show (p g && (roda.map Prod.fst).contains g.area) = true ↔ p g = true
    cases hpg : p g
    · simp
    · have hga : g.area = a := by
        have := hp g hpg
        simpa using this
      have hc : (roda.map Prod.fst).contains g.area = true := by
        rw [hga]
        exact List.elem_eq_true_of_mem ha
      rw [hc]
      simp
  have h1 := key (fun g => g.area == a) (fun g h => h)
  have h2 := key (fun g => g.area == a && g.completed)
    (fun g h => (Bool.and_eq_true_iff.mp h).1)
  have h3 := key (fun g => g.area == a && !g.completed)
    (fun g h => (Bool.and_eq_true_iff.mp h).1)
  rw [lookupAgg_goalsByArea, lookupAgg_goalsByArea]
  simp only [aggOf]
  rw [h1, h2, h3]

/-- C7: the insight computation returns normally on goals whose area is not a
key of the score mapping, and its output is the same as if those goals were
absent. -/
theorem unknown_area_goals_ignored (roda : List (Area × ℚ)) (goals : List Goal) :
    analyze_roda_insights roda goals =
      analyze_roda_insights roda
        (goals.filter (fun g => (roda.map Prod.fst).contains g.area)) := by
  have hlook : ∀ p : Area × ℚ, p ∈ List.insertionSort scoreLE roda →
      lookupAgg (goalsByArea goals) p.1 =
        lookupAgg (goalsByArea (goals.filter
          (fun g => (roda.map Prod.fst).contains g.area))) p.1 := by
    intro p hp
    exact (lookupAgg_filter_known roda goals p.1
      (List.mem_map_of_mem Prod.fst ((List.mem_insertionSort scoreLE).mp hp))).symm
  refine Insights.ext rfl rfl rfl ?_ ?_
  · rw [analyze_areas_without_goals, analyze_areas_without_goals]
    refine congrArg _ ?_
    have hlow : (analyze_roda_insights roda goals).low_areas
        = (analyze_roda_insights roda (goals.filter
            (fun g => (roda.map Prod.fst).contains g.area))).low_areas := rfl
    rw [← hlow]
    refine List.filter_congr ?_
    intro x hx
    have hxs : x ∈ List.insertionSort scoreLE roda := by
      rw [analyze_low_areas] at hx
      exact (List.filter_sublist _).subset hx
    rw [hlook x hxs]
  · rw [analyze_priority_recommendations, analyze_priority_recommendations]
    refine List.map_congr_left ?_
    intro p hp
    exact mkRec_congr _ _ p (hlook p ((List.take_sublist 3 _).subset hp))

/-! ### C8 and C10: the legacy-name migration of `load_data` -/

theorem migrate_scores_eq (roda : List (Area × ℚ)) :
    migrate_scores roda =
      if (old_to_new.filterMap (migratePair roda)).isEmpty then roda
      else old_to_new.filterMap (migratePair roda) := rfl

theorem migratePair_of_fst_some (roda : List (Area × ℚ)) (pr : Area × Area) (v : ℚ)
    (h : lookupQ roda pr.1 = some v) : migratePair roda pr = some (pr.2, v) := by
  rw [migratePair, h]

theorem migratePair_of_fst_none_snd_some (roda : List (Area × ℚ)) (pr : Area × Area)
    (v : ℚ) (h1 : lookupQ roda pr.1 = none) (h2 : lookupQ roda pr.2 = some v) :
    migratePair roda pr = some (pr.2, v) := by
  rw [migratePair, h1, h2]

theorem migratePair_of_none (roda : List (Area × ℚ)) (pr : Area × Area)
    (h1 : lookupQ roda pr.1 = none) (h2 : lookupQ roda pr.2 = none) :
    migratePair roda pr = none := by
  rw [migratePair, h1, h2]

theorem migratePair_fst (roda : List (Area × ℚ)) (pr : Area × Area) (q : Area × ℚ)
    (h : migratePair roda pr = some q) : q.1 = pr.2 := by
  cases h1 : lookupQ roda pr.1 with
  | some v =>
      rw [migratePair_of_fst_some roda pr v h1] at h
      cases h
      rfl
  | none =>
      cases h2 : lookupQ roda pr.2 with
      | some v =>
          rw [migratePair_of_fst_none_snd_some roda pr v h1 h2] at h
          cases h
          rfl
      | none =>
          rw [migratePair_of_none roda pr h1 h2] at h
          cases h

theorem lookupQ_eq_none_iff (roda : List (Area × ℚ)) (k : Area) :
    lookupQ roda k = none ↔ ∀ p ∈ roda, p.1 ≠ k := by
  simp [lookupQ, List.find?_eq_none]

theorem mem_keys_of_lookupQ_some (roda : List (Area × ℚ)) (k : Area) (v : ℚ)
    (h : lookupQ roda k = some v) : k ∈ roda.map Prod.fst := by
  rw [lookupQ] at h
  cases hf : roda.find? (fun p => p.1 == k) with
  | none =>
      rw [hf] at h
      exact absurd h (by simp)
  | some p =>
      have hp1 : p.1 = k := by simpa using List.find?_some hf
      exact hp1 ▸ List.mem_map_of_mem Prod.fst (List.mem_of_find?_eq_some hf)

theorem lookupQ_isSome_of_mem_keys (roda : List (Area × ℚ)) (k : Area)
    (h : k ∈ roda.map Prod.fst) : ∃ v, lookupQ roda k = some v := by
  obtain ⟨p, hp, hpk⟩ := List.mem_map.mp h
  cases hf : roda.find? (fun p => p.1 == k) with
  | none =>
      rw [List.find?_eq_none] at hf
      exact absurd (by simp [hpk]) (hf p hp)
  | some q => exact ⟨q.2, by rw [lookupQ, hf]; rfl⟩

theorem keys_filterMap_migrate (roda : List (Area × ℚ)) (ps : List (Area × Area)) :
    ∀ q ∈ ps.filterMap (migratePair roda), q.1 ∈ ps.map Prod.snd := by
  intro q hq
  obtain ⟨pr, hpr, hmp⟩ := List.mem_filterMap.mp hq
  rw [migratePair_fst roda pr q hmp]
  exact List.mem_map_of_mem Prod.snd hpr

theorem lookupQ_filterMap_snd (roda : List (Area × ℚ)) (ps : List (Area × Area))
    (hnd : (ps.map Prod.snd).Nodup) (pr : Area × Area) (hpr : pr ∈ ps) :
    lookupQ (ps.filterMap (migratePair roda)) pr.2
      = (migratePair roda pr).map Prod.snd := by
  induction ps with
  | nil => cases hpr
  | cons hd tl ih =>
      rw [List.map_cons] at hnd
      obtain ⟨hhd, htl⟩ := List.nodup_cons.mp hnd
      rcases List.mem_cons.mp hpr with rfl | hmem
      · cases hmp : migratePair roda pr with
        | some q =>
            have hq1 : q.1 = pr.2 := migratePair_fst roda pr q hmp
            rw [List.filterMap_cons_some hmp, lookupQ,
              List.find?_cons_of_pos _ (by simp [hq1])]
        | none =>
            rw [List.filterMap_cons_none hmp]
            show lookupQ (List.filterMap (migratePair roda) tl) pr.2 = none
            refine (lookupQ_eq_none_iff _ _).mpr ?_
            intro p hp
            have hmemp := keys_filterMap_migrate roda tl p hp
            exact fun h => hhd (h ▸ hmemp)
      · cases hmp : migratePair roda hd with
        | some q =>
            have hq1 : q.1 = hd.2 := migratePair_fst roda hd q hmp
            have hne : pr.2 ≠ hd.2 := by
              intro h
              exact hhd (h ▸ List.mem_map_of_mem Prod.snd hmem)
            rw [List.filterMap_cons_some hmp, lookupQ,
              List.find?_cons_of_neg _ (by simp [hq1]; exact fun h => hne h.symm)]
            exact ih htl hmem
        | none =>
            rw [List.filterMap_cons_none hmp]
            exact ih htl hmem

theorem no_old_is_new : ∀ pr ∈ old_to_new, pr.1 ∉ old_to_new.map Prod.snd := by decide

theorem no_new_is_old : ∀ pr ∈ old_to_new, pr.2 ∉ old_to_new.map Prod.fst := by decide

theorem new_names_nodup : (old_to_new.map Prod.snd).Nodup := by decide

/-- Re-running one migration-loop iteration on an already migrated mapping
reproduces the same contribution. -/
theorem migratePair_stable (roda : List (Area × ℚ)) (pr : Area × Area)
    (hpr : pr ∈ old_to_new) :
    migratePair (old_to_new.filterMap (migratePair roda)) pr
      = migratePair roda pr := by
  have h1 : lookupQ (old_to_new.filterMap (migratePair roda)) pr.1 = none := by
    refine (lookupQ_eq_none_iff _ _).mpr ?_
    intro q hq
    have hmem := keys_filterMap_migrate roda old_to_new q hq
    exact fun h => no_old_is_new pr hpr (h ▸ hmem)
  have h2 := lookupQ_filterMap_snd roda old_to_new new_names_nodup pr hpr
  cases h2a : lookupQ roda pr.1 with
  | some v =>
      have hmp := migratePair_of_fst_some roda pr v h2a
      have h2s : lookupQ (old_to_new.filterMap (migratePair roda)) pr.2 = some v := by
        rw [h2, hmp]
        rfl
      rw [migratePair_of_fst_none_snd_some _ pr v h1 h2s, hmp]
  | none =>
      cases h2b : lookupQ roda pr.2 with
      | some v =>
          have hmp := migratePair_of_fst_none_snd_some roda pr v h2a h2b
          have h2s : lookupQ (old_to_new.filterMap (migratePair roda)) pr.2 = some v := by
            rw [h2, hmp]
            rfl
          rw [migratePair_of_fst_none_snd_some _ pr v h1 h2s, hmp]
      | none =>
          have hmp := migratePair_of_none roda pr h2a h2b
          have h2s : lookupQ (old_to_new.filterMap (migratePair roda)) pr.2 = none := by
            rw [h2, hmp]
            rfl
          rw [migratePair_of_none _ pr h1 h2s, hmp]

theorem migrateArea_eq (a : Area) :
    migrateArea a =
      match old_to_new.find? (fun pr => pr.1 == a) with
      | some pr => pr.2
      | none => a := rfl

theorem migrateArea_idem (a : Area) : migrateArea (migrateArea a) = migrateArea a := by
  cases hf : old_to_new.find? (fun pr => pr.1 == a) with
  | none =>
      have h1 : migrateArea a = a := by rw [migrateArea_eq, hf]
      rw [h1]
      exact h1
  | some pr =>
      have hpr : pr ∈ old_to_new := List.mem_of_find?_eq_some hf
      have h1 : migrateArea a = pr.2 := by rw [migrateArea_eq, hf]
      rw [h1]
      have hf2 : old_to_new.find? (fun x => x.1 == pr.2) = none := by
        rw [List.find?_eq_none]
        intro x hx h
        have hx1 : x.1 = pr.2 := by simpa using h
        exact no_new_is_old pr hpr (hx1 ▸ List.mem_map_of_mem Prod.fst hx)
      rw [migrateArea_eq, hf2]

/-- C8: the legacy-area-name migration applied on load is idempotent, both on
`roda_scores` and on the `area` field of every goal; consequently reloading
an already-migrated document reproduces identical `roda_scores` and
`smart_goals`. -/
theorem migration_idempotent (roda : List (Area × ℚ)) (gs : List Goal) :
    migrate_scores (migrate_scores roda) = migrate_scores roda ∧
    migrate_goals (migrate_goals gs) = migrate_goals gs := by
  constructor
  · by_cases hM : (old_to_new.filterMap (migratePair roda)).isEmpty
    · have h0 : migrate_scores roda = roda := by rw [migrate_scores_eq, if_pos hM]
      rw [h0]
      exact h0
    · have h0 : migrate_scores roda = old_to_new.filterMap (migratePair roda) := by
        rw [migrate_scores_eq, if_neg hM]
      have hcongr :
          old_to_new.filterMap (migratePair (old_to_new.filterMap (migratePair roda)))
            = old_to_new.filterMap (migratePair roda) := by
        refine List.filterMap_congr ?_
        intro pr hpr
        exact migratePair_stable roda pr hpr
      rw [h0, migrate_scores_eq, hcongr, if_neg hM]
  · rw [migrate_goals, migrate_goals, List.map_map]
    refine List.map_congr_left ?_
    intro g hg
    show ({ g with area := migrateArea (migrateArea g.area) } : Goal)
      = { g with area := migrateArea g.area }
    rw [migrateArea_idem]

/-- C10 counterexample: an already-short mapping `{"Saúde": 3}` contains a
recognized key yet is left unchanged by the migration, so it is not the case
that only mappings with no recognized key are left unchanged. -/
theorem migration_unchanged_counterexample :
    migrate_scores [("Saúde", (3 : ℚ))] = [("Saúde", 3)] ∧ recognizedArea "Saúde" := by
  constructor
  · decide
  · decide

/-- C10 (amended): if `roda_scores` contains at least one recognized key,
the migration keeps only canonical short keys (every other key is silently
dropped), and a mapping containing no recognized key at all is left
unchanged (an already-migrated mapping may be left unchanged as well). -/
theorem migration_drops_unrecognized (roda : List (Area × ℚ)) :
    ((∃ k ∈ roda.map Prod.fst, recognizedArea k) →
       ∀ q ∈ migrate_scores roda, q.1 ∈ old_to_new.map Prod.snd) ∧
    ((∀ k ∈ roda.map Prod.fst, ¬ recognizedArea k) → migrate_scores roda = roda) := by
  constructor
  · rintro ⟨k, hk, hrec⟩ q hq
    have hne : ¬ (old_to_new.filterMap (migratePair roda)).isEmpty := by
      obtain ⟨v, hv⟩ := lookupQ_isSome_of_mem_keys roda k hk
      have hsome : ∃ pr ∈ old_to_new, ∃ q0, migratePair roda pr = some q0 := by
        rcases hrec with hold | hnew
        · obtain ⟨pr, hpr, hk1⟩ := List.mem_map.mp hold
          exact ⟨pr, hpr, (pr.2, v), migratePair_of_fst_some roda pr v (by rw [hk1]; exact hv)⟩
        · obtain ⟨pr, hpr, hk2⟩ := List.mem_map.mp hnew
          cases h1 : lookupQ roda pr.1 with
          | some w => exact ⟨pr, hpr, (pr.2, w), migratePair_of_fst_some roda pr w h1⟩
          | none =>
              exact ⟨pr, hpr, (pr.2, v),
                migratePair_of_fst_none_snd_some roda pr v h1 (by rw [hk2]; exact hv)⟩
      obtain ⟨pr, hpr, q0, hq0⟩ := hsome
      have hq0m : q0 ∈ old_to_new.filterMap (migratePair roda) :=
        List.mem_filterMap.mpr ⟨pr, hpr, hq0⟩
      intro hemp
      rw [List.isEmpty_iff] at hemp
      rw [hemp] at hq0m
      cases hq0m
    have hM : migrate_scores roda = old_to_new.filterMap (migratePair roda) := by
      rw [migrate_scores_eq, if_neg hne]
    rw [hM] at hq
    exact keys_filterMap_migrate roda old_to_new q hq
  · intro hnone
    have hall : ∀ pr ∈ old_to_new, migratePair roda pr = none := by
      intro pr hpr
      cases h1 : lookupQ roda pr.1 with
      | some v =>
          exact absurd (Or.inl (List.mem_map_of_mem Prod.fst hpr))
            (hnone pr.1 (mem_keys_of_lookupQ_some roda pr.1 v h1))
      | none =>
          cases h2 : lookupQ roda pr.2 with
          | some v =>
              exact absurd (Or.inr (List.mem_map_of_mem Prod.snd hpr))
                (hnone pr.2 (mem_keys_of_lookupQ_some roda pr.2 v h2))
          | none => exact migratePair_of_none roda pr h1 h2
    have hnil : old_to_new.filterMap (migratePair roda) = [] :=
      List.filterMap_eq_nil_iff.mpr hall
    rw [migrate_scores_eq, hnil]
    rfl

/-- Witness for the amended C10: a mixed mapping keeps only the canonical
key, and a fully unrecognized mapping is untouched. -/
theorem migration_drops_unrecognized_witness :
    ("Saúde" : Area) ∈ old_to_new.map Prod.snd ∧
    migrate_scores [("xyz", (1 : ℚ))] = [("xyz", 1)] :=
  ⟨(migration_drops_unrecognized [("Saúde", 3), ("xyz", 1)]).1
      ⟨"Saúde", by decide, by decide⟩ ("Saúde", 3) (by decide),
   (migration_drops_unrecognized [("xyz", 1)]).2 (by decide)⟩

end Alquimia
